import Mathlib

/-!
Verification development for `rhino_to_json.py`, a Rhino-to-JSON geometry
exporter.  The script samples selected curve geometry and writes a point
cloud to a JSON file.  The host CAD environment (the `rhinoscriptsyntax`
API: curve domains, parametric evaluation, polyline vertex lists, explode
and polyline-approximation operations, dialogs) is modelled by explicit
host structures; each source function becomes a Lean function of the
relevant host data.

Conventions of the embedding:
* A point (a host point, a vertex, or an emitted coordinate array) is a
  `List ℚ`; Python's `p[2] if len(p) > 2 else 0.0` is exactly `p.getD 2 0`.
  Indexing `p[0]`/`p[1]`, which the script only ever applies to host points
  that have at least two coordinates, is modelled total as `p.getD 0 0` /
  `p.getD 1 0`.
* A host call that can return `None` is modelled with `Option`; a host call
  whose exceptions the script catches is modelled with `HostResult`, which
  distinguishes a raised exception from a returned value.
* The script compares `math.sqrt(d) > 0.001` on exact nonnegative values;
  since `Real.sqrt` is strictly monotone and `0.001 > 0`, this is equivalent
  to `d > 0.001 ^ 2`, which is how the executable definitions phrase it.
  Theorems restate the guarantee through `Real.sqrt` where the distance
  itself is at issue.
-/

/-- A coordinate array: `[x, y]`, `[x, y, z]`, or raw host point data. -/
abbrev Pt : Type := List ℚ

/-- Result of a host API call whose exceptions the script catches:
either the call raised, or it returned a value. -/
inductive HostResult (α : Type) where
  | raised : HostResult α
  | returned : α → HostResult α
deriving DecidableEq, Repr

/-- Python's `int(q)` on a float/rational: truncation toward zero. -/
def pyInt (q : ℚ) : ℤ :=
  if 0 ≤ q then ⌊q⌋ else -⌊-q⌋

/-- The projection applied to every host point before it is emitted:
`[point[0], point[1]]` in profile mode,
`[point[0], point[1], point[2] if len(point) > 2 else 0.0]` in path mode. -/
def projPoint (is_profile : Bool) (point : Pt) : Pt :=
  if is_profile then [point.getD 0 0, point.getD 1 0]
  else [point.getD 0 0, point.getD 1 0, point.getD 2 0]

/-- The host data consumed by the curve samplers: `rs.CurveDomain`,
`rs.CurveLength` and `rs.EvaluateCurve` for one curve object.
`eval t = none` models `rs.EvaluateCurve` returning `None` (falsy),
in which case the loop body appends nothing. -/
structure CurveHost where
  domain : Option (ℚ × ℚ)
  length : ℚ
  eval : ℚ → Option Pt

/-- `curve_to_points(curve_id, is_profile, num_points)`: sample
`num_points + 1` parameters evenly across the curve domain, defaulting
`num_points` to `max(20, int(length * 10))`, evaluate, and project. -/
def curve_to_points (h : CurveHost) (is_profile : Bool)
    (num_points : Option ℕ) : Option (List Pt) :=
  match h.domain with
  | none => none
  | some (t0, t1) =>
      let n : ℕ :=
        match num_points with
        | some n => n
        | none => (max 20 (pyInt (h.length * 10))).toNat
      some ((List.range (n + 1)).filterMap fun (i : ℕ) =>
        (h.eval (t0 + (t1 - t0) * ((i : ℚ) / (n : ℚ)))).map (projPoint is_profile))

/-- `arc_to_points(arc_id, is_profile, num_points=32)`: identical sampling
loop, with the caller-supplied count (default 32). -/
def arc_to_points (h : CurveHost) (is_profile : Bool) (num_points : ℕ) :
    Option (List Pt) :=
  match h.domain with
  | none => none
  | some (t0, t1) =>
      some ((List.range (num_points + 1)).filterMap fun (i : ℕ) =>
        (h.eval (t0 + (t1 - t0) * ((i : ℚ) / (num_points : ℚ)))).map
          (projPoint is_profile))

/-- `circle_to_points(circle_id, is_profile, num_points=32)`: identical
sampling loop, with the caller-supplied count (default 32). -/
def circle_to_points (h : CurveHost) (is_profile : Bool) (num_points : ℕ) :
    Option (List Pt) :=
  match h.domain with
  | none => none
  | some (t0, t1) =>
      some ((List.range (num_points + 1)).filterMap fun (i : ℕ) =>
        (h.eval (t0 + (t1 - t0) * ((i : ℚ) / (num_points : ℚ)))).map
          (projPoint is_profile))

/-- The host data consumed by `polyline_to_points`: `rs.PolylineVertices`
(`[]` models both `None` and an empty vertex list, which Python's
`if not vertices` treats alike) and `rs.IsCurveClosed`. -/
structure PolylineHost where
  vertices : List Pt
  is_closed : Bool

/-- The first element of a point list (`points[0]`); `[]` on an empty list,
which the script never queries. -/
def firstD (l : List Pt) : Pt :=
  match l with
  | [] => []
  | a :: _ => a

/-- The last element of a point list (`points[-1]`); `[]` on an empty list,
which the script never queries. -/
def lastD (l : List Pt) : Pt :=
  match l with
  | [] => []
  | [a] => a
  | _ :: b :: rest => lastD (b :: rest)

/-- `polyline_to_points(polyline_id, is_profile)`: project the vertices
directly (no sampling); if the host reports the curve closed and the first
and last projected points are not exactly equal, append the first again. -/
def polyline_to_points (h : PolylineHost) (is_profile : Bool) :
    Option (List Pt) :=
  if h.vertices = [] then none
  else
    let points := h.vertices.map (projPoint is_profile)
    if h.is_closed ∧ points ≠ [] ∧ firstD points ≠ lastD points then
      some (points ++ [firstD points])
    else
      some points

/-- The deduplication tolerance of `export_to_json` (0.001 length units). -/
def tolerance : ℚ := 1 / 1000

/-- The squared distance computed inside `export_to_json`'s cleanup loop:
2D in profile mode; 3D in path mode with a missing third coordinate read
as 0 (`curr[2] if len(curr) > 2 else 0`).  The script compares
`math.sqrt(distSq ...) > tolerance`. -/
def distSq (is_profile : Bool) (prev curr : Pt) : ℚ :=
  if is_profile then
    (curr.getD 0 0 - prev.getD 0 0) ^ 2 + (curr.getD 1 0 - prev.getD 1 0) ^ 2
  else
    (curr.getD 0 0 - prev.getD 0 0) ^ 2 + (curr.getD 1 0 - prev.getD 1 0) ^ 2
      + (curr.getD 2 0 - prev.getD 2 0) ^ 2

/-- The body of the cleanup loop, after the first point has been kept:
`prev` is the last kept point; a point is appended exactly when its
distance from `prev` exceeds the tolerance
(`sqrt d > 0.001` iff `d > 0.001 ^ 2`). -/
def dedupFrom (is_profile : Bool) (prev : Pt) : List Pt → List Pt
  | [] => []
  | curr :: rest =>
      if distSq is_profile prev curr > tolerance ^ 2 then
        curr :: dedupFrom is_profile curr rest
      else
        dedupFrom is_profile prev rest

/-- The whole cleanup pass of `export_to_json`:
`cleaned_points = [all_points[0]]` followed by the loop.  (The script only
runs it on a nonempty list; `[]` is mapped to `[]`.) -/
def cleanPoints (is_profile : Bool) : List Pt → List Pt
  | [] => []
  | p :: rest => p :: dedupFrom is_profile p rest

/-- The profile-closure step of `export_to_json`: in profile mode, when
more than 2 points remain, append the first point again when the 2D gap
between first and last exceeds the tolerance. -/
def closeIfProfile (is_profile : Bool) (pts : List Pt) : List Pt :=
  if is_profile ∧ 2 < pts.length then
    if distSq true (firstD pts) (lastD pts) > tolerance ^ 2 then
      pts ++ [firstD pts]
    else pts
  else pts

/-- The interactive host data consumed by `export_to_json`:
the selection dialog (`rs.GetObjects`; `none` models `None`), the mode
prompt (`rs.GetString`), per-object extraction (`geometry_to_points`,
abstracted as a function of the object), the save dialog
(`rs.SaveFileName`), and whether the file write raises. -/
structure ExportHost (Obj : Type) where
  obj_ids : Option (List Obj)
  mode : Option String
  extract : Obj → Option (List Pt)
  file_path : Option String
  write_ok : Bool

/-- The observable outcome of one `export_to_json` run.  `emptyPoints`
is the "No points extracted" message box followed by `return`, reached
before the save dialog; `written` records the file contents. -/
inductive Outcome where
  | noSelection : Outcome
  | noMode : Outcome
  | emptyPoints : Outcome
  | cancelledSave : List Pt → Outcome
  | written : String → List Pt → Outcome
  | writeError : Outcome
deriving DecidableEq, Repr

/-- Whether an outcome reached the save-file dialog. -/
def reachedSaveDialog : Outcome → Bool
  | Outcome.noSelection => false
  | Outcome.noMode => false
  | Outcome.emptyPoints => false
  | Outcome.cancelledSave _ => true
  | Outcome.written _ _ => true
  | Outcome.writeError => true

/-- The file produced by an outcome, if any. -/
def writtenFile : Outcome → Option (String × List Pt)
  | Outcome.written fp pts => some (fp, pts)
  | _ => none

/-- The point lists gathered by `export_to_json`'s collection loop:
`all_points.extend(points)` for every object whose extraction is truthy
(a falsy `None` or `[]` only triggers a warning and contributes nothing,
which `Option.getD` with `[]` captures exactly). -/
def collectPoints {Obj : Type} (extract : Obj → Option (List Pt)) :
    List Obj → List Pt
  | [] => []
  | o :: rest => (extract o).getD [] ++ collectPoints extract rest

/-- `export_to_json()`: selection, mode prompt, per-object collection,
cleanup, profile closure, save dialog, write.  Python truthiness of the
dialog results (`if not obj_ids`, `if not result`, `if not file_path`)
maps `None` and the empty value alike to the corresponding abort. -/
def export_to_json {Obj : Type} (h : ExportHost Obj) : Outcome :=
  match h.obj_ids with
  | none => Outcome.noSelection
  | some objs =>
      if objs.isEmpty then Outcome.noSelection
      else
        match h.mode with
        | none => Outcome.noMode
        | some result =>
            if result = "" then Outcome.noMode
            else
              let is_profile := result = "PROFILE"
              let all_points := collectPoints h.extract objs
              if all_points = [] then Outcome.emptyPoints
              else
                let cleaned :=
                  closeIfProfile is_profile (cleanPoints is_profile all_points)
                match h.file_path with
                | none => Outcome.cancelledSave cleaned
                | some fp =>
                    if fp = "" then Outcome.cancelledSave cleaned
                    else if h.write_ok then Outcome.written fp cleaned
                    else Outcome.writeError

/-- The host data consumed by `convert_circle_to_arcs`:
`rs.ExplodeCurves(circle_id, delete_input=False)` (which may raise, return
`None`, or return a list of ids) and
`rs.ConvertCurveToPolyline(circle_id, angle_tolerance, tolerance,
min_edge_count, max_edge_count)` (which may raise or return a falsy value,
both modelled by its `Option` result inside `HostResult`). -/
structure CircleHost (Id : Type) where
  explode_result : HostResult (Option (List Id))
  to_polyline_result : ℚ → ℚ → ℕ → ℕ → HostResult (Option Id)

/-- `convert_circle_to_arcs(circle_id)`.  The outer `try` covers the
explode call: if it raises, the outer `except` returns the original id at
once — the polyline conversion is not attempted.  Otherwise, a non-empty
explode result is returned; failing that the polyline conversion is tried
with angle tolerance 5.0, tolerance 0.01, and 16–64 edges, its exception
swallowed by the inner `except`; failing that the original id is
returned. -/
def convert_circle_to_arcs {Id : Type} (h : CircleHost Id) (circle_id : Id) :
    List Id :=
  match h.explode_result with
  | HostResult.raised => [circle_id]
  | HostResult.returned exploded =>
      match exploded with
      | some ex =>
          if ex.length > 0 then ex
          else
            match h.to_polyline_result 5 (1 / 100) 16 64 with
            | HostResult.returned (some polyline) => [polyline]
            | _ => [circle_id]
      | none =>
          match h.to_polyline_result 5 (1 / 100) 16 64 with
          | HostResult.returned (some polyline) => [polyline]
          | _ => [circle_id]

/-- Modelled from the spec: the repository's second script variant — the
segment-schema "parametric extractor" of spec §3/§4.3 — is not present
under `src/` (only `rhino_to_json.py`, variant 1, is).  One record of the
spec's segment schema: a mandatory `type` tag and optional `start`, `end`
(here `end_`), `center`, `radius`, `clockwise`, `closed` fields; a `none`
field is an omitted key in the emitted JSON object. -/
structure SegmentRecord where
  type : String
  start : Option Pt
  end_ : Option Pt
  center : Option Pt
  radius : Option ℚ
  clockwise : Option Bool
  closed : Option Bool
deriving DecidableEq, Repr

/-- Modelled from the spec: variant 2's handling of a line segment object —
"For `line` ... extracts only the start/end evaluation at the curve's
domain boundaries" (spec §4.3), projected 2D or 3D per mode, yielding a
record with `type: "line"`, `start`, `end` and none of the arc/circle
fields (spec §8). -/
def extract_line_segment (h : CurveHost) (is_profile : Bool) :
    Option SegmentRecord :=
  match h.domain with
  | none => none
  | some (t0, t1) =>
      match h.eval t0, h.eval t1 with
      | some s, some e =>
          some { type := "line"
                 start := some (projPoint is_profile s)
                 end_ := some (projPoint is_profile e)
                 center := none
                 radius := none
                 clockwise := none
                 closed := none }
      | _, _ => none

/-! ### Properties of the cleanup pass -/

/-- The strict-separation relation used by the cleanup loop, as the code
computes it: squared distance beyond the squared tolerance. -/
def farApart (is_profile : Bool) (p q : Pt) : Prop :=
  distSq is_profile p q > tolerance ^ 2

instance (is_profile : Bool) (p q : Pt) : Decidable (farApart is_profile p q) := by
  unfold farApart; infer_instance

theorem dedupFrom_sublist (m : Bool) (prev : Pt) (l : List Pt) :
    (dedupFrom m prev l).Sublist l := by
  induction l generalizing prev with
  | nil => simp [dedupFrom]
  | cons curr rest ih =>
      by_cases hgap : distSq m prev curr > tolerance ^ 2
      · simp only [dedupFrom, if_pos hgap]
        exact (ih curr).cons₂ curr
      · simp only [dedupFrom, if_neg hgap]
        exact (ih prev).cons curr

theorem chain_dedupFrom (m : Bool) (prev : Pt) (l : List Pt) :
    List.Chain' (farApart m) (prev :: dedupFrom m prev l) := by
  induction l generalizing prev with
  | nil => simp [dedupFrom]
  | cons curr rest ih =>
      by_cases hgap : distSq m prev curr > tolerance ^ 2
      · simp only [dedupFrom, if_pos hgap]
        exact List.chain'_cons.mpr ⟨hgap, ih curr⟩
      · simp only [dedupFrom, if_neg hgap]
        exact ih prev

theorem dedupFrom_of_chain (m : Bool) (prev : Pt) (l : List Pt)
    (h : List.Chain' (farApart m) (prev :: l)) : dedupFrom m prev l = l := by
  induction l generalizing prev with
  | nil => rfl
  | cons curr rest ih =>
      rcases List.chain'_cons.mp h with ⟨hgap, hrest⟩
      have hgap' : distSq m prev curr > tolerance ^ 2 := hgap
      simp only [dedupFrom, if_pos hgap']
      exact congrArg (curr :: ·) (ih curr hrest)

/-- Squared ℚ-comparison against the squared tolerance transfers to the
real square-root distance the script actually compares. -/
theorem sqrt_gt_of_gt_sq {d : ℚ} (h : d > tolerance ^ 2) :
    Real.sqrt (d : ℝ) > (1 / 1000 : ℝ) := by
  have h' : ((1 : ℝ) / 1000) ^ 2 < (d : ℝ) := by
    have : ((tolerance : ℝ)) ^ 2 < (d : ℝ) := by exact_mod_cast h
    simpa [tolerance] using this
  exact (Real.lt_sqrt (by norm_num)).mpr h'

/-- C1: the cleanup pass keeps the first point unconditionally (same
`head?`), keeps a subsequence of the input, and every pair of consecutive
kept points is more than 0.001 apart in the mode's Euclidean distance
(with a missing z read as 0, which `distSq` encodes). -/
theorem cleanPoints_keeps_first_and_separates (is_profile : Bool)
    (all_points : List Pt) :
    (cleanPoints is_profile all_points).head? = all_points.head? ∧
    (cleanPoints is_profile all_points).Sublist all_points ∧
    List.Chain' (fun p q => Real.sqrt ((distSq is_profile p q : ℚ) : ℝ) > (1 / 1000 : ℝ))
      (cleanPoints is_profile all_points) := by
  cases all_points with
  | nil => simp [cleanPoints]
  | cons p rest =>
      refine ⟨rfl, ?_, ?_⟩
      · exact (dedupFrom_sublist is_profile p rest).cons₂ p
      · exact (chain_dedupFrom is_profile p rest).imp
          (fun a b hab => sqrt_gt_of_gt_sq hab)

/-- C3: the cleanup pass is idempotent — its output passes through the
pass unchanged, because all consecutive gaps already exceed the
tolerance. -/
theorem cleanPoints_idempotent (is_profile : Bool) (pts : List Pt) :
    cleanPoints is_profile (cleanPoints is_profile pts) =
      cleanPoints is_profile pts := by
  cases pts with
  | nil => rfl
  | cons p rest =>
      show p :: dedupFrom is_profile p (dedupFrom is_profile p rest) =
        p :: dedupFrom is_profile p rest
      exact congrArg (p :: ·)
        (dedupFrom_of_chain is_profile p _ (chain_dedupFrom is_profile p rest))

/-! ### Profile closure -/

theorem firstD_append_singleton (l : List Pt) (x : Pt) (h : l ≠ []) :
    firstD (l ++ [x]) = firstD l := by
  cases l with
  | nil => exact absurd rfl h
  | cons a t => rfl

theorem lastD_append_singleton (l : List Pt) (x : Pt) :
    lastD (l ++ [x]) = x := by
  induction l with
  | nil => rfl
  | cons a t ih =>
      cases t with
      | nil => rfl
      | cons b r =>
          simpa only [List.cons_append, lastD] using ih

theorem distSq_nonneg (m : Bool) (p q : Pt) : 0 ≤ distSq m p q := by
  unfold distSq
  split <;> positivity

theorem distSq_self (m : Bool) (p : Pt) : distSq m p p = 0 := by
  cases m <;> simp [distSq]

theorem sqrt_le_of_le_sq {d : ℚ} (h : d ≤ tolerance ^ 2) :
    Real.sqrt (d : ℝ) ≤ (1 / 1000 : ℝ) := by
  refine (Real.sqrt_le_left (by norm_num)).mpr ?_
  have : (d : ℝ) ≤ ((tolerance : ℝ)) ^ 2 := by exact_mod_cast h
  simpa [tolerance] using this

/-- C2: in a profile-mode run whose deduplicated sequence has at least
3 points, the closure step appends a copy of the first point exactly when
the 2D first-to-last gap exceeds 0.001, and afterwards the first and last
points of the final sequence are within 0.001 of each other. -/
theorem closeIfProfile_closes (pts : List Pt)
    (h3 : 3 ≤ (cleanPoints true pts).length) :
    (closeIfProfile true (cleanPoints true pts) =
      if distSq true (firstD (cleanPoints true pts))
          (lastD (cleanPoints true pts)) > tolerance ^ 2 then
        cleanPoints true pts ++ [firstD (cleanPoints true pts)]
      else cleanPoints true pts) ∧
    Real.sqrt ((distSq true (firstD (closeIfProfile true (cleanPoints true pts)))
        (lastD (closeIfProfile true (cleanPoints true pts))) : ℚ) : ℝ)
      ≤ (1 / 1000 : ℝ) := by
  set l := cleanPoints true pts with hl
  have hlen : 2 < l.length := h3
  have hne : l ≠ [] := by
    intro hnil
    rw [hnil] at hlen
    simp at hlen
  have hcond : (true : Bool) = true ∧ 2 < l.length := ⟨rfl, hlen⟩
  by_cases hgap : distSq true (firstD l) (lastD l) > tolerance ^ 2
  · have hout : closeIfProfile true l = l ++ [firstD l] := by
      unfold closeIfProfile
      rw [if_pos hcond, if_pos hgap]
    refine ⟨by rw [hout, if_pos hgap], ?_⟩
    rw [hout, firstD_append_singleton l _ hne, lastD_append_singleton]
    rw [distSq_self]
    norm_num
  · have hout : closeIfProfile true l = l := by
      unfold closeIfProfile
      rw [if_pos hcond, if_neg hgap]
    refine ⟨by rw [hout, if_neg hgap], ?_⟩
    rw [hout]
    exact sqrt_le_of_le_sq (le_of_not_lt hgap)

/-- Closed instance of C2: three well-separated profile points survive
deduplication, and the closure step appends the first point, leaving
first and last identical. -/
theorem closeIfProfile_closes_witness :
    3 ≤ (cleanPoints true [[0, 0], [1, 0], [1, 1]]).length ∧
    (closeIfProfile true (cleanPoints true [[0, 0], [1, 0], [1, 1]]) =
      if distSq true (firstD (cleanPoints true [[0, 0], [1, 0], [1, 1]]))
          (lastD (cleanPoints true [[0, 0], [1, 0], [1, 1]])) > tolerance ^ 2 then
        cleanPoints true [[0, 0], [1, 0], [1, 1]]
          ++ [firstD (cleanPoints true [[0, 0], [1, 0], [1, 1]])]
      else cleanPoints true [[0, 0], [1, 0], [1, 1]]) ∧
    Real.sqrt ((distSq true
        (firstD (closeIfProfile true (cleanPoints true [[0, 0], [1, 0], [1, 1]])))
        (lastD (closeIfProfile true (cleanPoints true [[0, 0], [1, 0], [1, 1]]))) : ℚ) : ℝ)
      ≤ (1 / 1000 : ℝ) := by
  have h3 : 3 ≤ (cleanPoints true [[0, 0], [1, 0], [1, 1]]).length := by
    norm_num [cleanPoints, dedupFrom, distSq, tolerance]
  have h := closeIfProfile_closes [[0, 0], [1, 0], [1, 1]] h3
  exact ⟨h3, h.1, h.2⟩

/-! ### Polyline extraction -/

theorem polyline_to_points_of_ne_nil (vs : List Pt) (closed is_profile : Bool)
    (hv : vs ≠ []) :
    polyline_to_points ⟨vs, closed⟩ is_profile =
      some (if closed ∧ firstD (vs.map (projPoint is_profile)) ≠
              lastD (vs.map (projPoint is_profile)) then
          vs.map (projPoint is_profile) ++ [firstD (vs.map (projPoint is_profile))]
        else vs.map (projPoint is_profile)) := by
  have hpne : vs.map (projPoint is_profile) ≠ [] := by
    simpa using hv
  simp only [polyline_to_points, if_neg hv]
  by_cases hc : (closed = true) ∧ firstD (vs.map (projPoint is_profile)) ≠
      lastD (vs.map (projPoint is_profile))
  · rw [if_pos ⟨hc.1, hpne, hc.2⟩, if_pos hc]
  · have hc' : ¬((closed = true) ∧ vs.map (projPoint is_profile) ≠ [] ∧
        firstD (vs.map (projPoint is_profile)) ≠ lastD (vs.map (projPoint is_profile))) := by
      rintro ⟨h1, _, h3⟩
      exact hc ⟨h1, h3⟩
    rw [if_neg hc', if_neg hc]

/-- C5: `polyline_to_points` emits the projected vertices without
sampling, appending the first projected point exactly when the host
reports the curve closed and the first and last projected points differ;
on vertices `[[0,0,0],[1,0,0],[1,1,0]]` with the closed flag set in path
mode it yields `[[0,0,0],[1,0,0],[1,1,0],[0,0,0]]`. -/
theorem polyline_vertices_and_closure (vs : List Pt) (closed is_profile : Bool)
    (hv : vs ≠ []) :
    (polyline_to_points ⟨vs, closed⟩ is_profile =
      some (if closed ∧ firstD (vs.map (projPoint is_profile)) ≠
              lastD (vs.map (projPoint is_profile)) then
          vs.map (projPoint is_profile) ++ [firstD (vs.map (projPoint is_profile))]
        else vs.map (projPoint is_profile))) ∧
    polyline_to_points ⟨[[0, 0, 0], [1, 0, 0], [1, 1, 0]], true⟩ false =
      some [[0, 0, 0], [1, 0, 0], [1, 1, 0], [0, 0, 0]] :=
  ⟨polyline_to_points_of_ne_nil vs closed is_profile hv, by decide⟩

/-- Closed instance of C5 at the spec's own example input. -/
theorem polyline_vertices_and_closure_witness :
    ([[0, 0, 0], [1, 0, 0], [1, 1, 0]] : List Pt) ≠ [] ∧
    ((polyline_to_points ⟨[[0, 0, 0], [1, 0, 0], [1, 1, 0]], true⟩ false =
      some (if (true : Bool) ∧
              firstD ([[0, 0, 0], [1, 0, 0], [1, 1, 0]].map (projPoint false)) ≠
              lastD ([[0, 0, 0], [1, 0, 0], [1, 1, 0]].map (projPoint false)) then
          [[0, 0, 0], [1, 0, 0], [1, 1, 0]].map (projPoint false)
            ++ [firstD ([[0, 0, 0], [1, 0, 0], [1, 1, 0]].map (projPoint false))]
        else [[0, 0, 0], [1, 0, 0], [1, 1, 0]].map (projPoint false))) ∧
      polyline_to_points ⟨[[0, 0, 0], [1, 0, 0], [1, 1, 0]], true⟩ false =
        some [[0, 0, 0], [1, 0, 0], [1, 1, 0], [0, 0, 0]]) :=
  ⟨by simp, polyline_vertices_and_closure [[0, 0, 0], [1, 0, 0], [1, 1, 0]] true false
    (by simp)⟩

/-- C10: the closing-point append of `polyline_to_points` tests exact
equality of the projected coordinate lists, not the 0.001 tolerance: any
nonzero first/last difference triggers the append (here 0.0001, well
inside the tolerance), while in profile mode two vertices differing only
in z project equal and trigger no append. -/
theorem polyline_append_by_exact_equality (vs : List Pt) (is_profile : Bool)
    (hv : vs ≠ [])
    (hne : firstD (vs.map (projPoint is_profile)) ≠
      lastD (vs.map (projPoint is_profile))) :
    (polyline_to_points ⟨vs, true⟩ is_profile =
      some (vs.map (projPoint is_profile)
        ++ [firstD (vs.map (projPoint is_profile))])) ∧
    polyline_to_points ⟨[[0, 0], [0, 1 / 10000]], true⟩ true =
      some [[0, 0], [0, 1 / 10000], [0, 0]] ∧
    polyline_to_points ⟨[[0, 0, 0], [0, 0, 5]], true⟩ true =
      some [[0, 0], [0, 0]] := by
  refine ⟨?_, ?_, ?_⟩
  · rw [polyline_to_points_of_ne_nil vs true is_profile hv, if_pos ⟨rfl, hne⟩]
  · norm_num [polyline_to_points, projPoint, firstD, lastD]
    simp
  · norm_num [polyline_to_points, projPoint, firstD, lastD]
    simp

/-- Closed instance of C10 at the sub-tolerance input. -/
theorem polyline_append_by_exact_equality_witness :
    ([[0, 0], [0, 1 / 10000]] : List Pt) ≠ [] ∧
    firstD ([[0, 0], [0, 1 / 10000]].map (projPoint true)) ≠
      lastD ([[0, 0], [0, 1 / 10000]].map (projPoint true)) ∧
    polyline_to_points ⟨[[0, 0], [0, 1 / 10000]], true⟩ true =
      some ([[0, 0], [0, 1 / 10000]].map (projPoint true)
        ++ [firstD ([[0, 0], [0, 1 / 10000]].map (projPoint true))]) := by
  have hv : ([[0, 0], [0, 1 / 10000]] : List Pt) ≠ [] := by simp
  have hne : firstD ([[0, 0], [0, 1 / 10000]].map (projPoint true)) ≠
      lastD ([[0, 0], [0, 1 / 10000]].map (projPoint true)) := by
    norm_num [projPoint, firstD, lastD]
  exact ⟨hv, hne, (polyline_append_by_exact_equality [[0, 0], [0, 1 / 10000]] true hv hne).1⟩

/-! ### Curve sampling -/

theorem filterMap_eq_map_of_isSome (l : List ℕ) (f : ℕ → Option Pt)
    (hf : ∀ i ∈ l, (f i).isSome) :
    l.filterMap f = l.map fun i => (f i).getD [] := by
  induction l with
  | nil => rfl
  | cons a t ih =>
      have ha := hf a (by simp)
      rcases hfa : f a with _ | p
      · rw [hfa] at ha
        simp at ha
      · simp only [List.filterMap_cons, List.map_cons, hfa, Option.getD_some]
        rw [ih fun i hi => hf i (by simp [hi])]

/-- C4: with the sample count unspecified, `curve_to_points` uses
N = max(20, int(length·10)) — which coincides with max(20, ⌊length·10⌋) —
and, when the host evaluates successfully at every parameter, returns
exactly the N+1 points evaluated at t0 + (t1−t0)·i/N for i = 0..N,
each projected per mode. -/
theorem curve_to_points_default_sampling (h : CurveHost) (t0 t1 : ℚ)
    (is_profile : Bool) (hdom : h.domain = some (t0, t1))
    (heval : ∀ t, (h.eval t).isSome) :
    (max 20 (pyInt (h.length * 10)) = max 20 ⌊h.length * 10⌋) ∧
    curve_to_points h is_profile none =
      some ((List.range ((max 20 (pyInt (h.length * 10))).toNat + 1)).map fun (i : ℕ) =>
        projPoint is_profile ((h.eval (t0 + (t1 - t0) *
          ((i : ℚ) / (((max 20 (pyInt (h.length * 10))).toNat : ℕ) : ℚ)))).getD [])) ∧
    (∀ pts, curve_to_points h is_profile none = some pts →
      pts.length = (max 20 (pyInt (h.length * 10))).toNat + 1) := by
  have hfloor : max 20 (pyInt (h.length * 10)) = max 20 ⌊h.length * 10⌋ := by
    unfold pyInt
    split
    · rfl
    · rename_i hneg
      push_neg at hneg
      have h1 : ⌊h.length * 10⌋ ≤ 0 := Int.floor_nonpos hneg.le
      have h2 : (0 : ℤ) ≤ ⌊-(h.length * 10)⌋ :=
        Int.floor_nonneg.mpr (by linarith)
      rw [max_eq_left (by omega), max_eq_left (by omega)]
  have hmain : curve_to_points h is_profile none =
      some ((List.range ((max 20 (pyInt (h.length * 10))).toNat + 1)).map fun (i : ℕ) =>
        projPoint is_profile ((h.eval (t0 + (t1 - t0) *
          ((i : ℚ) / (((max 20 (pyInt (h.length * 10))).toNat : ℕ) : ℚ)))).getD [])) := by
    unfold curve_to_points
    rw [hdom]
    refine congrArg some ?_
    rw [filterMap_eq_map_of_isSome]
    · refine List.map_congr_left fun i hi => ?_
      rcases hev : h.eval (t0 + (t1 - t0) *
          ((i : ℚ) / (((max 20 (pyInt (h.length * 10))).toNat : ℕ) : ℚ))) with _ | p
      · have := heval (t0 + (t1 - t0) *
          ((i : ℚ) / (((max 20 (pyInt (h.length * 10))).toNat : ℕ) : ℚ)))
        rw [hev] at this
        simp at this
      · simp [hev]
    · intro i hi
      rcases hev : h.eval (t0 + (t1 - t0) *
          ((i : ℚ) / (((max 20 (pyInt (h.length * 10))).toNat : ℕ) : ℚ))) with _ | p
      · have := heval (t0 + (t1 - t0) *
          ((i : ℚ) / (((max 20 (pyInt (h.length * 10))).toNat : ℕ) : ℚ)))
        rw [hev] at this
        simp at this
      · simp [hev]
  refine ⟨hfloor, hmain, fun pts hpts => ?_⟩
  rw [hmain] at hpts
  have := Option.some.inj hpts
  rw [← this]
  simp

/-- Closed instance of C4: a curve of length 2 on domain [0, 1] whose
evaluation always succeeds is sampled at 21 parameters. -/
theorem curve_to_points_default_sampling_witness :
    (⟨some (0, 1), 2, fun t => some [t, 0, 0]⟩ : CurveHost).domain = some (0, 1) ∧
    (max 20 (pyInt ((⟨some (0, 1), 2, fun t => some [t, 0, 0]⟩ : CurveHost).length * 10)) =
      max 20 ⌊(⟨some (0, 1), 2, fun t => some [t, 0, 0]⟩ : CurveHost).length * 10⌋) ∧
    (∀ pts, curve_to_points (⟨some (0, 1), 2, fun t => some [t, 0, 0]⟩ : CurveHost)
        false none = some pts →
      pts.length = (max 20 (pyInt ((⟨some (0, 1), 2,
        fun t => some [t, 0, 0]⟩ : CurveHost).length * 10))).toNat + 1) := by
  have h := curve_to_points_default_sampling
    (⟨some (0, 1), 2, fun t => some [t, 0, 0]⟩ : CurveHost) 0 1 false rfl
    (fun t => rfl)
  exact ⟨rfl, h.1, h.2.2⟩

/-! ### Output point arity -/

theorem projPoint_length (m : Bool) (p : Pt) :
    (projPoint m p).length = if m then 2 else 3 := by
  cases m <;> simp [projPoint]

theorem firstD_mem (l : List Pt) (h : l ≠ []) : firstD l ∈ l := by
  cases l with
  | nil => exact absurd rfl h
  | cons a t => exact List.mem_cons_self a t

theorem filterMap_proj_arity (is_profile : Bool) (g : ℕ → Option Pt)
    (l : List ℕ) (p : Pt)
    (hmem : p ∈ l.filterMap fun i => (g i).map (projPoint is_profile)) :
    p.length = if is_profile then 2 else 3 := by
  rcases List.mem_filterMap.mp hmem with ⟨i, _, hf⟩
  rcases Option.map_eq_some'.mp hf with ⟨q, _, rfl⟩
  exact projPoint_length is_profile q

/-- C9: every point emitted by `curve_to_points`, `arc_to_points`,
`circle_to_points` and `polyline_to_points` has exactly 2 coordinates in
profile mode and exactly 3 in path mode; a host point with fewer than 3
coordinates gets z filled in as 0 (e.g. `projPoint false [x, y] = [x, y, 0]`). -/
theorem emitted_point_arity (is_profile : Bool) :
    (∀ (h : CurveHost) (np : Option ℕ) (pts : List Pt),
      curve_to_points h is_profile np = some pts →
      ∀ p ∈ pts, p.length = if is_profile then 2 else 3) ∧
    (∀ (h : CurveHost) (n : ℕ) (pts : List Pt),
      arc_to_points h is_profile n = some pts →
      ∀ p ∈ pts, p.length = if is_profile then 2 else 3) ∧
    (∀ (h : CurveHost) (n : ℕ) (pts : List Pt),
      circle_to_points h is_profile n = some pts →
      ∀ p ∈ pts, p.length = if is_profile then 2 else 3) ∧
    (∀ (h : PolylineHost) (pts : List Pt),
      polyline_to_points h is_profile = some pts →
      ∀ p ∈ pts, p.length = if is_profile then 2 else 3) ∧
    (∀ x y : ℚ, projPoint false [x, y] = [x, y, 0]) := by
  refine ⟨?_, ?_, ?_, ?_, ?_⟩
  · intro h np pts hp p hmem
    unfold curve_to_points at hp
    split at hp
    · exact Option.noConfusion hp
    · cases Option.some.inj hp
      exact filterMap_proj_arity is_profile _ _ p hmem
  · intro h n pts hp p hmem
    unfold arc_to_points at hp
    split at hp
    · exact Option.noConfusion hp
    · cases Option.some.inj hp
      exact filterMap_proj_arity is_profile _ _ p hmem
  · intro h n pts hp p hmem
    unfold circle_to_points at hp
    split at hp
    · exact Option.noConfusion hp
    · cases Option.some.inj hp
      exact filterMap_proj_arity is_profile _ _ p hmem
  · intro h pts hp p hmem
    simp only [polyline_to_points] at hp
    split at hp
    · exact Option.noConfusion hp
    · split at hp
      · rename_i hcond
        cases Option.some.inj hp
        rcases List.mem_append.mp hmem with hm | hm
        · rcases List.mem_map.mp hm with ⟨v, _, rfl⟩
          exact projPoint_length is_profile v
        · have hpe : p = firstD (h.vertices.map (projPoint is_profile)) := by
            simpa using hm
          rcases List.mem_map.mp (firstD_mem _ hcond.2.1) with ⟨v, _, hv⟩
          rw [hpe, ← hv]
          exact projPoint_length is_profile v
      · cases Option.some.inj hp
        rcases List.mem_map.mp hmem with ⟨v, _, rfl⟩
        exact projPoint_length is_profile v
  · intro x y
    simp [projPoint]

/-- Closed instance of C9 on a one-vertex polyline in path mode. -/
theorem emitted_point_arity_witness :
    polyline_to_points ⟨[[1, 2, 3]], false⟩ false = some [[1, 2, 3]] ∧
    ∀ p ∈ ([[1, 2, 3]] : List Pt), p.length = if false then 2 else 3 := by
  have happ : polyline_to_points ⟨[[1, 2, 3]], false⟩ false = some [[1, 2, 3]] := by
    decide
  exact ⟨happ,
    (emitted_point_arity false).2.2.2.1 ⟨[[1, 2, 3]], false⟩ [[1, 2, 3]] happ⟩

/-! ### Circle conversion -/

/-- C6 counterexample: when the explode call itself raises, the outer
`except` returns the original circle id at once even though the polyline
conversion would have succeeded — so the claimed unconditional
(a)-then-(b)-then-(c) fallback order does not hold as stated: the explode
yielded no segment list, the polyline conversion yields id 7, yet the
result is `[0]`, not `[7]`. -/
theorem convert_circle_to_arcs_cex :
    (¬ ∃ ex : List ℕ, (⟨HostResult.raised, fun _ _ _ _ =>
        HostResult.returned (some 7)⟩ : CircleHost ℕ).explode_result =
        HostResult.returned (some ex) ∧ ex ≠ []) ∧
    (⟨HostResult.raised, fun _ _ _ _ =>
        HostResult.returned (some 7)⟩ : CircleHost ℕ).to_polyline_result
      5 (1 / 100) 16 64 = HostResult.returned (some 7) ∧
    convert_circle_to_arcs (⟨HostResult.raised, fun _ _ _ _ =>
      HostResult.returned (some 7)⟩ : CircleHost ℕ) 0 = [0] ∧
    convert_circle_to_arcs (⟨HostResult.raised, fun _ _ _ _ =>
      HostResult.returned (some 7)⟩ : CircleHost ℕ) 0 ≠ [7] := by
  refine ⟨?_, rfl, rfl, by decide⟩
  rintro ⟨ex, hex, -⟩
  exact HostResult.noConfusion hex

/-- C6 amended: `convert_circle_to_arcs` returns (a) the exploded segment
list when the explode call returns a non-empty list; (b) otherwise — when
the explode call *returns* `None` or an empty list — the polyline
conversion's result (angle tolerance 5.0, tolerance 0.01, 16–64 edges) as
a one-element list when it yields one; (c) otherwise the original circle
id — with the proviso that when the explode call raises, the original
circle id is returned immediately and the polyline conversion is not
consulted at all. -/
theorem convert_circle_to_arcs_cases {Id : Type} (h : CircleHost Id)
    (circle_id : Id) :
    (h.explode_result = HostResult.raised →
      convert_circle_to_arcs h circle_id = [circle_id]) ∧
    (∀ ex, h.explode_result = HostResult.returned (some ex) → ex ≠ [] →
      convert_circle_to_arcs h circle_id = ex) ∧
    (∀ p, (h.explode_result = HostResult.returned none ∨
        h.explode_result = HostResult.returned (some [])) →
      h.to_polyline_result 5 (1 / 100) 16 64 = HostResult.returned (some p) →
      convert_circle_to_arcs h circle_id = [p]) ∧
    ((h.explode_result = HostResult.returned none ∨
        h.explode_result = HostResult.returned (some [])) →
      (∀ p, h.to_polyline_result 5 (1 / 100) 16 64 ≠
        HostResult.returned (some p)) →
      convert_circle_to_arcs h circle_id = [circle_id]) := by
  refine ⟨?_, ?_, ?_, ?_⟩
  · intro hex
    simp [convert_circle_to_arcs, hex]
  · intro ex hex hne
    simp [convert_circle_to_arcs, hex, List.length_pos.mpr hne]
  · intro p hex hpoly
    rcases hex with hex | hex
    · simp only [convert_circle_to_arcs, hex]
      rw [hpoly]
    · simp only [convert_circle_to_arcs, hex]
      rw [if_neg (by simp : ¬(List.length ([] : List Id) > 0))]
      rw [hpoly]
  · intro hex hpoly
    rcases hp : h.to_polyline_result 5 (1 / 100) 16 64 with _ | op
    · rcases hex with hex | hex
      · simp only [convert_circle_to_arcs, hex]
      · simp only [convert_circle_to_arcs, hex]
        rw [if_neg (by simp : ¬(List.length ([] : List Id) > 0))]
    · rcases op with _ | p
      · rcases hex with hex | hex
        · simp only [convert_circle_to_arcs, hex]
        · simp only [convert_circle_to_arcs, hex]
          rw [if_neg (by simp : ¬(List.length ([] : List Id) > 0))]
      · exact absurd hp (hpoly p)

/-- Closed instance of the amended C6, case (a): a successful two-segment
explode is returned as-is. -/
theorem convert_circle_to_arcs_cases_witness :
    (⟨HostResult.returned (some [3, 4]), fun _ _ _ _ =>
        HostResult.raised⟩ : CircleHost ℕ).explode_result =
      HostResult.returned (some [3, 4]) ∧
    ([3, 4] : List ℕ) ≠ [] ∧
    convert_circle_to_arcs (⟨HostResult.returned (some [3, 4]),
      fun _ _ _ _ => HostResult.raised⟩ : CircleHost ℕ) 0 = [3, 4] :=
  ⟨rfl, by decide,
    (convert_circle_to_arcs_cases (⟨HostResult.returned (some [3, 4]),
      fun _ _ _ _ => HostResult.raised⟩ : CircleHost ℕ) 0).2.1
      [3, 4] rfl (by decide)⟩

/-! ### Export control flow -/

theorem collectPoints_eq_nil {Obj : Type} (extract : Obj → Option (List Pt))
    (objs : List Obj) (h : ∀ o ∈ objs, (extract o).getD [] = []) :
    collectPoints extract objs = [] := by
  induction objs with
  | nil => rfl
  | cons o rest ih =>
      show (extract o).getD [] ++ collectPoints extract rest = []
      rw [h o (by simp), ih fun o ho => h o (by simp [ho])]
      rfl

/-- C7: when the selection is non-empty and a mode was chosen but no
selected object contributes any point, the run ends at the
"No points extracted" message: the save dialog is never reached and no
file is written. -/
theorem export_empty_extraction_aborts {Obj : Type} (h : ExportHost Obj)
    (objs : List Obj) (mode : String)
    (h1 : h.obj_ids = some objs) (h2 : objs ≠ [])
    (h3 : h.mode = some mode) (h4 : mode ≠ "")
    (h5 : ∀ o ∈ objs, (h.extract o).getD [] = []) :
    export_to_json h = Outcome.emptyPoints ∧
    reachedSaveDialog (export_to_json h) = false ∧
    writtenFile (export_to_json h) = none := by
  have hexp : export_to_json h = Outcome.emptyPoints := by
    have hie : objs.isEmpty = false := by
      cases objs with
      | nil => exact absurd rfl h2
      | cons a t => rfl
    simp only [export_to_json, h1, h3]
    rw [if_neg (by simp [hie] : ¬(objs.isEmpty = true))]
    rw [if_neg h4]
    rw [collectPoints_eq_nil h.extract objs h5]
    rfl
  rw [hexp]
  exact ⟨rfl, rfl, rfl⟩

/-- Closed instance of C7: one selected object whose extraction returns
`None` in path mode. -/
theorem export_empty_extraction_aborts_witness :
    (⟨some [0], some "PATH", fun _ => none, some "out.json", true⟩ :
        ExportHost ℕ).obj_ids = some [0] ∧
    ([0] : List ℕ) ≠ [] ∧
    (⟨some [0], some "PATH", fun _ => none, some "out.json", true⟩ :
        ExportHost ℕ).mode = some "PATH" ∧
    ("PATH" : String) ≠ "" ∧
    export_to_json (⟨some [0], some "PATH", fun _ => none, some "out.json",
        true⟩ : ExportHost ℕ) = Outcome.emptyPoints ∧
    writtenFile (export_to_json (⟨some [0], some "PATH", fun _ => none,
        some "out.json", true⟩ : ExportHost ℕ)) = none := by
  have h := export_empty_extraction_aborts
    (⟨some [0], some "PATH", fun _ => none, some "out.json", true⟩ :
      ExportHost ℕ) [0] "PATH" rfl (by decide) rfl (by decide)
    (fun o _ => rfl)
  exact ⟨rfl, by decide, rfl, by decide, h.1, h.2.2⟩

/-! ### Variant-2 line records -/

/-- C8 (variant 2 modelled from the spec): a line segment record carries
`type = "line"` with start and end present, and no `center`, `radius` or
`clockwise` field. -/
theorem line_segment_record_fields (h : CurveHost) (is_profile : Bool)
    (r : SegmentRecord)
    (hr : extract_line_segment h is_profile = some r) :
    r.type = "line" ∧ r.start.isSome ∧ r.end_.isSome ∧
    r.center = none ∧ r.radius = none ∧ r.clockwise = none := by
  unfold extract_line_segment at hr
  split at hr
  · exact Option.noConfusion hr
  · split at hr
    · cases Option.some.inj hr
      exact ⟨rfl, rfl, rfl, rfl, rfl, rfl⟩
    · exact Option.noConfusion hr

/-- Closed instance of C8 on a concrete line host. -/
theorem line_segment_record_fields_witness :
    extract_line_segment (⟨some (0, 1), 1, fun t => some [t, 0, 0]⟩ : CurveHost)
        false =
      some { type := "line", start := some [0, 0, 0], end_ := some [1, 0, 0],
             center := none, radius := none, clockwise := none,
             closed := none } ∧
    ({ type := "line", start := some [0, 0, 0], end_ := some [1, 0, 0],
       center := none, radius := none, clockwise := none,
       closed := none } : SegmentRecord).type = "line" ∧
    ({ type := "line", start := some [0, 0, 0], end_ := some [1, 0, 0],
       center := none, radius := none, clockwise := none,
       closed := none } : SegmentRecord).center = none := by
  have hr : extract_line_segment
      (⟨some (0, 1), 1, fun t => some [t, 0, 0]⟩ : CurveHost) false =
      some { type := "line", start := some [0, 0, 0], end_ := some [1, 0, 0],
             center := none, radius := none, clockwise := none,
             closed := none } := by
    simp [extract_line_segment, projPoint]
  have h := line_segment_record_fields
    (⟨some (0, 1), 1, fun t => some [t, 0, 0]⟩ : CurveHost) false _ hr
  exact ⟨hr, h.1, h.2.2.2.1⟩
